import Mathlib

/-!  Shallow embedding of the id-management core of the blender-idproperty
addon (`src/__init__.py`).

The model covers one tracked collection kind at a time: the global dicts
`ID_TO_HASH[kind]` / `HASH_TO_NAME[kind]` become the `idToHash` /
`hashToName` fields of `BState`, the per-scene integer counters
`<kind>_id_counter` become the `scenes` list (one entry per scene, holding
that scene's copy of the counter), and the collection's live members become
`data`.  Python dicts are modeled by association lists with
first-match lookup and prepend insertion; a raised `IndexError` (no scenes
to read a counter from) is modeled by `Option`.  `hash(ob)` — Python's
object-identity hash of a bpy struct, stable under rename and distinct
across simultaneously live objects — is the `hash` field of `Entity`.  -/

/-- A live member of a tracked collection.  `rawId` models the hidden custom
property `self["id"]` (`self.get("id", 0)`), with `0` the unset sentinel;
`library` models `self.library.id` — the id of the library the object is
linked from — with `none` for local objects. -/
structure Entity where
  name : String
  hash : Int
  rawId : Nat
  library : Option Nat
deriving DecidableEq

/-- The per-kind slice of the addon's global state: the live collection, the
per-scene counter copies, and the two identity-cache dicts. -/
structure BState where
  data : List Entity
  scenes : List Nat
  idToHash : List (Nat × Int)
  hashToName : List (Int × String)
deriving DecidableEq

/-- Python `dict.get(k, None)` on an association list (first match wins). -/
def alookup {α β : Type} [BEq α] (m : List (α × β)) (k : α) : Option β :=
  (m.find? (fun p => p.1 == k)).map (fun p => p.2)

/-- Python `d[k] = v`: prepend, so the new binding shadows any older one. -/
def aset {α β : Type} [BEq α] (m : List (α × β)) (k : α) (v : β) : List (α × β) :=
  (k, v) :: m

/-- `data.get(name, None)` on a bpy collection: the member with that name. -/
def dataGet (data : List Entity) (nm : String) : Option Entity :=
  data.find? (fun ob => ob.name == nm)

/-- In-place mutation of the (uniquely named) member `nm` of the collection. -/
def updateData (data : List Entity) (nm : String) (ob : Entity) : List Entity :=
  data.map (fun o => if o.name == nm then ob else o)

/-- Renaming a live member: only its `name` changes; its storage identity
(`hash`), its stored raw id and its library link are untouched. -/
def renameOb (data : List Entity) (oldN newN : String) : List Entity :=
  data.map (fun o => if o.name == oldN then { o with name := newN } else o)

/-- Maximum of a list of counters, `none` on the empty list. -/
def listMax : List Nat → Option Nat
  | [] => none
  | x :: xs =>
    match listMax xs with
    | none => some x
    | some m => some (max x m)

/-- `_get_global_id` (source lines 162-169): sorts the scenes by their
counter field in descending order and takes the first, i.e. returns the
maximum counter value among all per-scene copies; with no scenes the
source raises IndexError, modeled as `none`. -/
def get_global_id (scenes : List Nat) : Option Nat := listMax scenes

/-- `_inc_global_id` (source lines 171-178): returns `old_max_id + 1` and
writes that value into every scene's copy of the counter. -/
def inc_global_id (scenes : List Nat) (old_max_id : Nat) : Nat × List Nat :=
  (old_max_id + 1, scenes.map (fun _ => old_max_id + 1))

/-- Source line 51. -/
def LIB_ID_SPACE : Nat := 10000000

/-- `lib_offset` computed in `_create_id_getter` (source lines 209-211). -/
def libOffset (ob : Entity) : Nat :=
  match ob.library with
  | some libId => (libId + 1) * LIB_ID_SPACE
  | none => 0

/-- The getter of the injected read-only `id` IntProperty
(`_create_id_getter`, source lines 199-214): on first access it lazily
allocates `self["id"]` from the scene counters (taking the current maximum
and then bumping every copy), and the returned value is offset by the
linked library's id for linked objects.  Returns (exposed id, the possibly
mutated entity, the possibly mutated scene counters). -/
def id_getter (scenes : List Nat) (ob : Entity) : Option (Nat × Entity × List Nat) :=
  if ob.rawId == 0 then
    match get_global_id scenes with
    | none => none
    | some m =>
      let ob1 : Entity := { ob with rawId := m }
      some (m + libOffset ob1, ob1, (inc_global_id scenes m).2)
  else
    some (ob.rawId + libOffset ob, ob, scenes)

/-- The value the `id` attribute exposes for an entity whose raw id is
already assigned: raw id plus library offset. -/
def effective_id (ob : Entity) : Nat := ob.rawId + libOffset ob

/-- `get_by_id` (source lines 182-195): id → hash → name → live member.
`hash_to_name.get(None)` and the falsy test `if ob_name:` are modeled
exactly: a `none` hash finds no name, and an empty name finds no member. -/
def get_by_id (st : BState) (id : Option Nat) : Option Entity :=
  let h := id.bind (fun i => alookup st.idToHash i)
  let ob_name := h.bind (fun hv => alookup st.hashToName hv)
  match ob_name with
  | some nm => if nm == "" then none else dataGet st.data nm
  | none => none

/-- The Reference Property getter (`create_getter`, source lines 221-250),
acting on the stored raw field value (`self.get(value_key, None)`).
Returns the resolved name ("" when none is found) and the state with any
cache updates the read performed.  Note the recovery branch (source lines
230-235) consults `get_by_id`, which reads the same `idToHash` dict that
just missed, so it can never actually produce an object there; it is
modeled faithfully all the same (the key write is guarded on the id being
present, which is forced whenever an object is found). -/
def getter_fn (st : BState) (field : Option Nat) : String × BState :=
  let ob_id := field
  let h0 := ob_id.bind (fun i => alookup st.idToHash i)
  let hst :=
    match h0 with
    | some h => (some h, st)
    | none =>
      match ob_id, get_by_id st ob_id with
      | some i, some ob =>
        (some ob.hash,
          { st with idToHash := aset st.idToHash i ob.hash,
                    hashToName := aset st.hashToName ob.hash ob.name })
      | _, _ => (none, st)
  let ob_hash := hst.1
  let st1 := hst.2
  let ob_name0 := ob_hash.bind (fun h => alookup st1.hashToName h)
  let exists0 :=
    match ob_name0 with
    | some nm => st1.data.any (fun o => o.name == nm)
    | none => false
  if exists0 then (ob_name0.getD "", st1)
  else
    match st1.data.find? (fun o => ob_hash == some o.hash) with
    | some o =>
      (o.name,
        match ob_hash with
        | some h => { st1 with hashToName := aset st1.hashToName h o.name }
        | none => st1)
    | none => (ob_name0.getD "", st1)

/-- The Reference Property setter (`create_setter`, source lines 254-283).
Takes the optional validator, the state, the currently stored field value
and the assigned name; returns the new stored field value and the new
state, or `none` when the id allocation raised (no scenes).  Reading
`ob.id` (source lines 270, 278, 281) allocates lazily and mutates the live
object and the counters, which is threaded explicitly here. -/
def setter_fn (validator : Option (Entity → Bool)) (st : BState)
    (field : Option Nat) (value : String) : Option (Option Nat × BState) :=
  if value == "" then
    some (some 0, st)
  else
    match dataGet st.data value with
    | none => some (field, st)
    | some ob =>
      let valid := match validator with | some v => v ob | none => true
      if valid then
        match id_getter st.scenes ob with
        | none => none
        | some idRes =>
          let obId := idRes.1
          let ob1 := idRes.2.1
          let st1 : BState := { st with data := updateData st.data value ob1,
                                        scenes := idRes.2.2 }
          let expected := alookup st1.idToHash obId
          if expected != some ob.hash then
            match id_getter st1.scenes { ob1 with rawId := 0 } with
            | none => none
            | some idRes2 =>
              let obId2 := idRes2.1
              let ob3 := idRes2.2.1
              let st2 : BState :=
                { st1 with data := updateData st1.data value ob3,
                           scenes := idRes2.2.2,
                           idToHash := aset st1.idToHash obId2 ob.hash,
                           hashToName := aset st1.hashToName ob.hash ob.name }
              some (some obId2, st2)
          else
            some (some obId, st1)
      else
        some (field, st)

/-- Stable-enough insertion step for descending sort by name. -/
def insertByNameDesc (ob : Entity) : List Entity → List Entity
  | [] => [ob]
  | x :: xs => if x.name < ob.name then ob :: x :: xs else x :: insertByNameDesc ob xs

/-- `sorted(col, key=lambda ob: ob.name, reverse=True)` (source line 321). -/
def sortByNameDesc (l : List Entity) : List Entity := l.foldr insertByNameDesc []

/-- The per-kind body of `load_file` (source lines 323-330), scanning the
members in the given order with the freshly cleared caches: each member's
`id` attribute is read (allocating lazily); a member whose id is already a
key of the rebuilt `id_to_hash` has its raw id reset to 0 — and the very
next line's `id_to_hash[ob.id] = hash(ob)` re-reads `ob.id`, immediately
allocating its fresh replacement; both cache dicts are then filled in.
The resulting `data` lists the members with their post-scan fields, in
scan order. -/
def load_scan (scenes : List Nat) (i2h : List (Nat × Int)) (h2n : List (Int × String)) :
    List Entity → Option BState
  | [] => some ⟨[], scenes, i2h, h2n⟩
  | ob :: rest =>
    match id_getter scenes ob with
    | none => none
    | some r1 =>
      if (alookup i2h r1.1).isSome then
        match id_getter r1.2.2 { r1.2.1 with rawId := 0 } with
        | none => none
        | some r2 =>
          match load_scan r2.2.2 (aset i2h r2.1 r2.2.1.hash)
              (aset h2n r2.2.1.hash r2.2.1.name) rest with
          | none => none
          | some out => some { out with data := r2.2.1 :: out.data }
      else
        match load_scan r1.2.2 (aset i2h r1.1 r1.2.1.hash)
            (aset h2n r1.2.1.hash r1.2.1.name) rest with
        | none => none
        | some out => some { out with data := r1.2.1 :: out.data }

/-- `load_file` (source lines 312-330) for one collection kind: clear both
cache dicts and rebuild them by scanning all live members ordered by name
descending. -/
def load_file (st : BState) : Option BState :=
  load_scan st.scenes [] [] (sortByNameDesc st.data)

/-- No two members of the list hold the same raw id. -/
def distinctRawIds : List Entity → Bool
  | [] => true
  | ob :: rest => rest.all (fun o => o.rawId != ob.rawId) && distinctRawIds rest

/-- Every member of the list holds an assigned (nonzero) raw id. -/
def allIdsAssigned (l : List Entity) : Bool := l.all (fun o => o.rawId != 0)

/-- The state `setter_fn` produces when assigning the name `nD` of a
duplicated entity `D` (stale cache entry under its inherited id): `D` is
re-identified with the fresh id `M`, the counters are re-synchronized to
`M + 1`, and the caches learn the fresh binding. -/
def dupRefreshState (st : BState) (nD : String) (D : Entity) (M : Nat) : BState :=
  { data := updateData (updateData st.data nD D) nD { D with rawId := M },
    scenes := (inc_global_id st.scenes M).2,
    idToHash := aset st.idToHash M D.hash,
    hashToName := aset st.hashToName D.hash D.name }

/-!  Concrete instances used by witnesses and counterexamples.  -/

/-- C1 witness state: `A` named "X" with id 4, caches consistent. -/
def c1A : Entity := ⟨"X", 100, 4, none⟩

def c1St : BState :=
  ⟨[⟨"X", 100, 4, none⟩, ⟨"Z", 300, 6, none⟩], [9],
   [(4, 100), (6, 300)], [(100, "X"), (300, "Z")]⟩

/-- C2 witness: `A` (id 3, hash 100) is the cached holder of id 3; `D` is a
fresh duplicate of it (same inherited raw id 3, new hash 200); counter 7. -/
def c2A : Entity := ⟨"A", 100, 3, none⟩

def c2D : Entity := ⟨"D", 200, 3, none⟩

def c2St : BState := ⟨[c2A, c2D], [7], [(3, 100)], [(100, "A")]⟩

/-- C3 counterexample state: the live member "A" holds id 5 as its exposed
id attribute, but id 5 is absent from the (empty) `idToHash` cache. -/
def c3Ob : Entity := ⟨"A", 50, 5, none⟩

def c3St : BState := ⟨[c3Ob], [9], [], []⟩

/-- C4 counterexample state: the counter has drifted down to 1 while two
members already share raw id 1 — the collision "repair" reallocates id 1. -/
def c4St : BState := ⟨[⟨"a", 20, 1, none⟩, ⟨"b", 10, 1, none⟩], [1], [], []⟩

/-- C4 amended-claim witness: same collision, but the counter (3) is above
every live raw id, as the allocator maintains. -/
def c4StW : BState :=
  ⟨[⟨"a", 20, 1, none⟩, ⟨"b", 10, 1, none⟩, ⟨"c", 30, 2, none⟩], [3], [], []⟩

/-- C5 witness entity: no id assigned yet. -/
def c5Ob : Entity := ⟨"F", 1, 0, none⟩

/-- C7 failing input: the field stores id 7; the caches still remember hash
100 and name "X" for it, but no live object has hash 100 (the referent was
deleted; "B" is an unrelated survivor). -/
def c7St : BState := ⟨[⟨"B", 60, 2, none⟩], [3], [(7, 100)], [(100, "X")]⟩

/-- C8 witness state. -/
def c8Ob : Entity := ⟨"T", 100, 4, none⟩

def c8St : BState := ⟨[c8Ob], [9], [(4, 100)], [(100, "T")]⟩

/-- C9 witness: an entity linked from the library with id 2. -/
def c9Ob : Entity := ⟨"L", 1, 42, some 2⟩

/-- C10 witness state: one member still unset, two colliding, counter 2. -/
def c10St : BState :=
  ⟨[⟨"p", 20, 0, none⟩, ⟨"q", 10, 1, none⟩, ⟨"r", 30, 1, none⟩], [2], [], []⟩

/-!  Helper lemmas about the association-list, counter and collection
primitives.  -/

theorem alookup_aset_self {α β : Type} [BEq α] [LawfulBEq α]
    (m : List (α × β)) (k : α) (v : β) : alookup (aset m k v) k = some v := by
  simp [alookup, aset, List.find?_cons_of_pos]

theorem alookup_aset_ne {α β : Type} [BEq α] [LawfulBEq α]
    (m : List (α × β)) (k k' : α) (v : β) (h : k' ≠ k) :
    alookup (aset m k v) k' = alookup m k' := by
  have : ((k, v).1 == k') = false := by simpa using fun e => h e.symm
  simp [alookup, aset, List.find?_cons_of_neg, this]

theorem alookup_none_of_lt {β : Type} (m : List (Nat × β)) (M : Nat)
    (h : ∀ p ∈ m, p.1 < M) : alookup m M = none := by
  have : m.find? (fun p => p.1 == M) = none := by
    rw [List.find?_eq_none]
    intro p hp
    simpa using Nat.ne_of_lt (h p hp)
  simp [alookup, this]

theorem alookup_ne_of_aset_none {α β : Type} [BEq α] [LawfulBEq α]
    {m : List (α × β)} {k k' : α} {v : β}
    (h : alookup (aset m k v) k' = none) : k' ≠ k ∧ alookup m k' = none := by
  by_cases e : k' = k
  · subst e; rw [alookup_aset_self] at h; cases h
  · exact ⟨e, by rwa [alookup_aset_ne m k k' v e] at h⟩

theorem listMax_ne_nil {l : List Nat} {M : Nat} (h : listMax l = some M) : l ≠ [] := by
  cases l with
  | nil => simp [listMax] at h
  | cons x xs => exact List.cons_ne_nil x xs

theorem listMax_replicate (l : List Nat) (v : Nat) (h : l ≠ []) :
    listMax (l.map (fun _ => v)) = some v := by
  induction l with
  | nil => exact absurd rfl h
  | cons x xs ih =>
    cases xs with
    | nil => simp [listMax]
    | cons y ys =>
      have := ih (List.cons_ne_nil y ys)
      simp only [List.map_cons] at this ⊢
      rw [listMax, this]
      simp

theorem dataGet_name {l : List Entity} {nm : String} {ob : Entity}
    (h : dataGet l nm = some ob) : ob.name = nm := by
  have := List.find?_some h
  simpa using this

theorem dataGet_mem {l : List Entity} {nm : String} {ob : Entity}
    (h : dataGet l nm = some ob) : ob ∈ l :=
  List.mem_of_find?_eq_some h

theorem dataGet_any {l : List Entity} {nm : String} {ob : Entity}
    (h : dataGet l nm = some ob) : (l.any (fun o => o.name == nm)) = true := by
  rw [List.any_eq_true]
  exact ⟨ob, dataGet_mem h, by simpa using dataGet_name h⟩

theorem updateData_id {l : List Entity} {nm : String} {ob : Entity}
    (h : ∀ o ∈ l, o.name = nm → o = ob) : updateData l nm ob = l := by
  induction l with
  | nil => rfl
  | cons x xs ih =>
    have hx : (if x.name == nm then ob else x) = x := by
      by_cases e : x.name = nm
      · simp [e, (h x (List.mem_cons_self x xs) e).symm]
      · simp [e]
    have ihx := ih (fun o ho he => h o (List.mem_cons_of_mem x ho) he)
    simp only [updateData, List.map_cons] at ihx ⊢
    rw [hx]
    exact congrArg (x :: ·) ihx

/-!  Claim theorems.  -/

/-- C5: accessing the `id` attribute twice in succession yields the same id
both times, and the second access modifies neither the entity's stored raw
id nor the scene counters — the second call returns exactly the first
call's triple.  Hypotheses: at least one scene exists and the counter
maximum is positive (the counter's default floor is 1). -/
theorem id_attribute_idempotent (scenes : List Nat) (ob : Entity) (M : Nat)
    (hM : get_global_id scenes = some M) (hpos : 0 < M) :
    (id_getter scenes ob).isSome = true ∧
    (id_getter scenes ob).bind (fun r => id_getter r.2.2 r.2.1) = id_getter scenes ob := by
  by_cases h : ob.rawId = 0
  · have hM0 : (M == 0) = false := by simpa using Nat.pos_iff_ne_zero.mp hpos
    have e1 : id_getter scenes ob
        = some (M + libOffset { ob with rawId := M }, { ob with rawId := M },
            (inc_global_id scenes M).2) := by
      simp only [id_getter, h, beq_self_eq_true, if_true, hM]
    have e2 : id_getter (inc_global_id scenes M).2 { ob with rawId := M }
        = some (M + libOffset { ob with rawId := M }, { ob with rawId := M },
            (inc_global_id scenes M).2) := by
      simp only [id_getter, hM0, Bool.false_eq_true, if_false]
    refine ⟨by rw [e1]; rfl, ?_⟩
    rw [e1]
    exact e2
  · have h' : (ob.rawId == 0) = false := by simpa using h
    have e1 : id_getter scenes ob = some (ob.rawId + libOffset ob, ob, scenes) := by
      simp only [id_getter, h', Bool.false_eq_true, if_false]
    refine ⟨by rw [e1]; rfl, ?_⟩
    rw [e1]
    exact e1

/-- C5 witness: a fresh entity with counter list `[1]`. -/
theorem id_attribute_idempotent_check :
    (id_getter [1] c5Ob).isSome = true ∧
    (id_getter [1] c5Ob).bind (fun r => id_getter r.2.2 r.2.1) = id_getter [1] c5Ob :=
  id_attribute_idempotent [1] c5Ob 1 (by decide) (by decide)

/-- C6: `_inc_global_id(kind, m)` returns `m + 1` and writes `m + 1` into
every scene's redundant copy of the counter, so `_get_global_id` afterwards
returns `m + 1` no matter which copy held the maximum or had drifted. -/
theorem inc_global_id_resync (scenes : List Nat) (m : Nat) (hne : scenes ≠ []) :
    (inc_global_id scenes m).1 = m + 1 ∧
    get_global_id (inc_global_id scenes m).2 = some (m + 1) ∧
    ((inc_global_id scenes m).2.all (fun c => c == m + 1)) = true := by
  refine ⟨rfl, ?_, ?_⟩
  · exact listMax_replicate scenes (m + 1) hne
  · simp [inc_global_id, List.all_eq_true]

/-- C6 witness: drifted copies `[3, 1]`, observed maximum 5. -/
theorem inc_global_id_resync_check :
    (inc_global_id [3, 1] 5).1 = 6 ∧
    get_global_id (inc_global_id [3, 1] 5).2 = some 6 ∧
    ((inc_global_id [3, 1] 5).2.all (fun c => c == 6)) = true :=
  inc_global_id_resync [3, 1] 5 (by decide)

/-- C8: when the assigned name resolves to a live object that the supplied
validator rejects, the set is silently ignored: the stored field value, the
whole state (the target's raw id and both identity caches included) are
returned unchanged, and no exception is raised (`some` result). -/
theorem validator_reject_is_noop (v : Entity → Bool) (st : BState) (fld : Option Nat)
    (value : String) (ob : Entity) (hv : value ≠ "")
    (hfind : dataGet st.data value = some ob) (hrej : v ob = false) :
    setter_fn (some v) st fld value = some (fld, st) := by
  have hv' : (value == "") = false := by simpa using hv
  simp only [setter_fn, hv', if_false, hfind, hrej, Bool.false_eq_true]

/-- C8 witness: a validator that rejects everything. -/
theorem validator_reject_is_noop_check :
    setter_fn (some (fun _ => false)) c8St (some 4) "T" = some (some 4, c8St) :=
  validator_reject_is_noop (fun _ => false) c8St (some 4) "T" c8Ob
    (by decide) (by decide) rfl

/-- C9: for an entity with an assigned raw id, the exposed `id` attribute
returns `raw_id + (library_id + 1) * 10000000` when the entity is linked
from an external library, and `raw_id` when it is not (and the access
mutates nothing). -/
theorem effective_id_exposed (scenes : List Nat) (ob : Entity) (h : ob.rawId ≠ 0) :
    id_getter scenes ob = some (effective_id ob, ob, scenes) ∧
    effective_id ob = ob.rawId + (match ob.library with
      | some libIdx => (libIdx + 1) * 10000000
      | none => 0) := by
  have h' : (ob.rawId == 0) = false := by simpa using h
  refine ⟨by simp only [id_getter, h', Bool.false_eq_true, if_false, effective_id], ?_⟩
  cases hl : ob.library with
  | none => simp [effective_id, libOffset, hl]
  | some libIdx => simp [effective_id, libOffset, hl, LIB_ID_SPACE]

/-- C9 witness: raw id 42 linked from the library with id 2 exposes
`42 + 3 * 10000000`; the same entity unlinked would expose 42. -/
theorem effective_id_exposed_check :
    id_getter [5] c9Ob = some (effective_id c9Ob, c9Ob, [5]) ∧
    effective_id c9Ob = c9Ob.rawId + (match c9Ob.library with
      | some libIdx => (libIdx + 1) * 10000000
      | none => 0) :=
  effective_id_exposed [5] c9Ob (by decide)

/-- C3 counterexample: the live member "A" currently holds id 5 as its
exposed id attribute, id 5 is absent from `idToHash`, yet resolving the
stored id 5 returns the not-found sentinel "" — not "A" as the claim
states.  The full-scan fallback compares content hashes, and on an
`idToHash` miss there is no hash to compare against (`get_by_id` re-reads
the dict that just missed), so recovery is impossible. -/
theorem cache_miss_no_recovery_cex :
    (getter_fn c3St (some 5)).1 = "" ∧
    dataGet c3St.data "A" = some c3Ob ∧ effective_id c3Ob = 5 ∧
    alookup c3St.idToHash 5 = none ∧ ("" : String) ≠ "A" := by
  refine ⟨?_, ?_, ?_, ?_, ?_⟩ <;> decide

/-- C3 amended: for every stored id absent from the `idToHash` cache, the
getter performs its fallbacks but returns the not-found sentinel "" and
leaves the state untouched — even when a live member currently holds that
very id, because the scan matches by content hash, which is unknown on an
id cache miss. -/
theorem cache_miss_returns_sentinel (st : BState) (i : Nat) (ob : Entity)
    (hmiss : alookup st.idToHash i = none)
    (hmem : ob ∈ st.data) (hid : effective_id ob = i) :
    getter_fn st (some i) = ("", st) := by
  have hg : get_by_id st (some i) = none := by
    simp [get_by_id, hmiss]
  have hscan : st.data.find? (fun o => (none : Option Int) == some o.hash) = none := by
    rw [List.find?_eq_none]
    intro x hx
    simp
  simp only [getter_fn, Option.bind_some, Option.some_bind, hmiss, hg, Option.bind_none,
    Option.none_bind, Bool.false_eq_true, if_false, hscan, Option.getD_none]

/-- C3 amended-claim witness. -/
theorem cache_miss_returns_sentinel_check : getter_fn c3St (some 5) = ("", c3St) :=
  cache_miss_returns_sentinel c3St 5 c3Ob (by decide) (by decide) (by decide)

/-- C7 (code bug): the module's own docstring promises that a reference
"will automatically unlink if that object goes away", and the spec says
resolution of a deleted referent returns the not-found sentinel.  But when
the referenced object is deleted while the caches still hold its entry,
the getter returns the stale cached name "X" — not the sentinel "" — since
the full scan finds no hash match and `ob_name` is never cleared before
the final `if ob_name is None` test.  The read does hold the rest of the
claim: it raises nothing and mutates nothing (the state comes back
unchanged, the stored field value is not written). -/
theorem deleted_reference_returns_stale_name :
    getter_fn c7St (some 7) = ("X", c7St) ∧ ("X" : String) ≠ "" := by
  refine ⟨?_, ?_⟩ <;> decide

/-- C1: rename-invariance.  A Reference Property field is set to the live
object `A`'s name `X` (the caches being consistent for `A`: its assigned id
maps to its hash and its hash to its current name); `A` is then renamed to
`Y` while staying live with its content hash unchanged.  Reading the field
afterwards returns `Y`, `A`'s current name: the stale cached name `X` no
longer names a live member, so the getter's full scan re-finds `A` by its
content hash and adopts the new name.  Names and hashes of live members are
unique (a bpy invariant): the hypotheses say any member named `X` is `A`
and any member with `A`'s hash is named `X`. -/
theorem reference_survives_rename (st : BState) (A : Entity) (X Y : String)
    (fld : Option Nat)
    (hX : X ≠ "") (hfind : dataGet st.data X = some A)
    (hk0 : A.rawId ≠ 0) (hlib : A.library = none)
    (hexp : alookup st.idToHash A.rawId = some A.hash)
    (hh2n : alookup st.hashToName A.hash = some X)
    (hnames : ∀ o ∈ st.data, o.name = X → o = A)
    (hhash : ∀ o ∈ st.data, o.hash = A.hash → o.name = X)
    (hXY : X ≠ Y) :
    setter_fn none st fld X = some (some A.rawId, st) ∧
    (getter_fn { st with data := renameOb st.data X Y } (some A.rawId)).1 = Y := by
  have hX' : (X == "") = false := by simpa using hX
  have hk' : (A.rawId == 0) = false := by simpa using hk0
  have hoff : libOffset A = 0 := by simp [libOffset, hlib]
  have hidg : id_getter st.scenes A = some (A.rawId, A, st.scenes) := by
    simp only [id_getter, hk', Bool.false_eq_true, if_false, hoff, Nat.add_zero]
  have hupd : updateData st.data X A = st.data := updateData_id hnames
  have hAname : A.name = X := dataGet_name hfind
  have hmemA : A ∈ st.data := dataGet_mem hfind
  constructor
  · simp only [setter_fn, hX', Bool.false_eq_true, if_false, hfind, hidg, hoff,
      Nat.add_zero, hupd, hexp, bne_self_eq_false, if_true]
  · have hnoX : ((renameOb st.data X Y).any (fun o => o.name == X)) = false := by
      rw [List.any_eq_false]
      intro o' ho'
      rw [renameOb, List.mem_map] at ho'
      obtain ⟨o, ho, heq⟩ := ho'
      by_cases e : o.name = X
      · rw [← heq]
        simp only [e, beq_self_eq_true, if_true]
        simpa using fun h => hXY h.symm
      · rw [← heq]
        have e' : (o.name == X) = false := by simpa using e
        simp only [e', Bool.false_eq_true, if_false]
        simpa using e
    obtain ⟨o', ho'⟩ : ∃ o', (renameOb st.data X Y).find?
        (fun o => (some A.hash : Option Int) == some o.hash) = some o' := by
      rw [← Option.isSome_iff_exists, List.find?_isSome]
      refine ⟨{ A with name := Y }, ?_, by simp⟩
      rw [renameOb, List.mem_map]
      exact ⟨A, hmemA, by simp [hAname]⟩
    have hpred := List.find?_some ho'
    have hmem' := List.mem_of_find?_eq_some ho'
    have hhash' : o'.hash = A.hash := by
      have h1 : ((some A.hash : Option Int) == some o'.hash) = true := hpred
      exact (Option.some.inj (beq_iff_eq.mp h1)).symm
    have hname' : o'.name = Y := by
      rw [renameOb, List.mem_map] at hmem'
      obtain ⟨o, ho, heq⟩ := hmem'
      by_cases e : o.name = X
      · rw [← heq]
        simp only [e, beq_self_eq_true, if_true]
      · have e' : (o.name == X) = false := by simpa using e
        have he' : o' = o := by rw [← heq]; simp only [e', Bool.false_eq_true, if_false]
        exact absurd (hhash o ho (he' ▸ hhash')) e
    simp only [getter_fn, Option.bind_some, Option.some_bind, hexp, hh2n, hnoX,
      Bool.false_eq_true, if_false, ho', hname']

/-- C1 witness: set the field to "X" (entity `c1A`, id 4), rename to "Y",
read back "Y". -/
theorem reference_survives_rename_check :
    setter_fn none c1St none "X" = some (some c1A.rawId, c1St) ∧
    (getter_fn { c1St with data := renameOb c1St.data "X" "Y" } (some c1A.rawId)).1 = "Y" :=
  reference_survives_rename c1St c1A "X" "Y" none (by decide) (by decide) (by decide)
    (by decide) (by decide) (by decide) (by decide) (by decide) (by decide)

theorem dataGet_cons_pos {y : Entity} {nm : String} (ys : List Entity)
    (h : y.name = nm) : dataGet (y :: ys) nm = some y := by
  rw [dataGet]
  exact List.find?_cons_of_pos _ (by simpa using h)

theorem dataGet_cons_neg {y : Entity} {nm : String} (ys : List Entity)
    (h : ¬ y.name = nm) : dataGet (y :: ys) nm = dataGet ys nm := by
  rw [dataGet, dataGet]
  exact List.find?_cons_of_neg _ (by simpa using h)

theorem updateData_cons (y : Entity) (ys : List Entity) (nm : String) (ob : Entity) :
    updateData (y :: ys) nm ob
      = (if y.name == nm then ob else y) :: updateData ys nm ob := rfl

theorem dataGet_updateData_self {l : List Entity} {nm : String} {x ob : Entity}
    (h : dataGet l nm = some x) (hob : ob.name = nm) :
    dataGet (updateData l nm ob) nm = some ob := by
  induction l with
  | nil => exact absurd h (by simp [dataGet])
  | cons y ys ih =>
    rw [updateData_cons]
    by_cases e : y.name = nm
    · rw [if_pos (by simpa using e)]
      exact dataGet_cons_pos _ hob
    · rw [if_neg (by simpa using e)]
      rw [dataGet_cons_neg _ e]
      exact ih (by rwa [dataGet_cons_neg _ e] at h)

theorem dataGet_updateData_ne {l : List Entity} {nm nm' : String} {ob : Entity}
    (hob : ob.name = nm) (hne : nm' ≠ nm) :
    dataGet (updateData l nm ob) nm' = dataGet l nm' := by
  induction l with
  | nil => rfl
  | cons y ys ih =>
    rw [updateData_cons]
    by_cases e : y.name = nm
    · rw [if_pos (by simpa using e)]
      have hpred : ¬ ob.name = nm' := by rw [hob]; exact fun hc => hne hc.symm
      have hpredy : ¬ y.name = nm' := by rw [e]; exact fun hc => hne hc.symm
      rw [dataGet_cons_neg _ hpred, dataGet_cons_neg _ hpredy]
      exact ih
    · rw [if_neg (by simpa using e)]
      by_cases e2 : y.name = nm'
      · rw [dataGet_cons_pos _ e2, dataGet_cons_pos _ e2]
      · rw [dataGet_cons_neg _ e2, dataGet_cons_neg _ e2]
        exact ih

/-- C2: duplication re-identification at write time.  `D` is a fresh
duplicate: it inherited raw id `k` from the original `A`, but its content
hash differs from the hash the cache holds for id `k`.  Setting a
Reference Property to `D`'s name resets `D`'s raw id to the unset sentinel
and immediately allocates the fresh id `M` (the counter maximum, distinct
from `k` by the allocator's counter invariant `k < M`), stores `M` in the
field, and leaves the original holder `A` untouched: `A` is returned
unchanged by name lookup and the stored id `k` still resolves to `A`'s
name through the caches. -/
theorem setter_refreshes_duplicate_id (st : BState) (D A : Entity) (nD nA : String)
    (fld : Option Nat) (k M : Nat) (hA : Int)
    (hnD : nD ≠ "")
    (hfindD : dataGet st.data nD = some D)
    (hk : D.rawId = k) (hk0 : k ≠ 0) (hlibD : D.library = none)
    (hM : get_global_id st.scenes = some M) (hkM : k < M)
    (hexp : alookup st.idToHash k = some hA) (hmis : hA ≠ D.hash)
    (hfindA : dataGet st.data nA = some A) (hAraw : A.rawId = k) (hnAD : nA ≠ nD)
    (hh2n : alookup st.hashToName hA = some nA) :
    setter_fn none st fld nD = some (some M, dupRefreshState st nD D M) ∧
    M ≠ k ∧
    dataGet (dupRefreshState st nD D M).data nD = some { D with rawId := M } ∧
    dataGet (dupRefreshState st nD D M).data nA = some A ∧
    (getter_fn (dupRefreshState st nD D M) (some k)).1 = nA := by
  have hnD' : (nD == "") = false := by simpa using hnD
  have hk' : (D.rawId == 0) = false := by rw [hk]; simpa using hk0
  have hoffD : libOffset D = 0 := by simp [libOffset, hlibD]
  have hDname : D.name = nD := dataGet_name hfindD
  have hMk : M ≠ k := (Nat.ne_of_lt hkM).symm
  have hidg1 : id_getter st.scenes D = some (D.rawId, D, st.scenes) := by
    simp only [id_getter, hk', Bool.false_eq_true, if_false, hoffD, Nat.add_zero]
  have hidg2 : id_getter st.scenes { D with rawId := 0 }
      = some (M, { D with rawId := M }, (inc_global_id st.scenes M).2) := by
    simp only [id_getter, beq_self_eq_true, if_true, hM]
    simp [libOffset, hlibD]
  have hbne : (some hA != some D.hash) = true := by simpa using hmis
  have hset : setter_fn none st fld nD = some (some M, dupRefreshState st nD D M) := by
    simp only [setter_fn, hnD', Bool.false_eq_true, if_false, hfindD, if_true, hidg1,
      hk, hexp, hbne, hidg2, dupRefreshState]
  have hgD : dataGet (dupRefreshState st nD D M).data nD = some { D with rawId := M } := by
    show dataGet (updateData (updateData st.data nD D) nD { D with rawId := M }) nD
        = some { D with rawId := M }
    exact dataGet_updateData_self (dataGet_updateData_self hfindD hDname) hDname
  have hgA : dataGet (dupRefreshState st nD D M).data nA = some A := by
    show dataGet (updateData (updateData st.data nD D) nD { D with rawId := M }) nA
        = some A
    rw [dataGet_updateData_ne (show ({ D with rawId := M } : Entity).name = nD from hDname)
      hnAD, dataGet_updateData_ne hDname hnAD]
    exact hfindA
  refine ⟨hset, hMk, hgD, hgA, ?_⟩
  have h1 : alookup (dupRefreshState st nD D M).idToHash k = some hA := by
    show alookup (aset st.idToHash M D.hash) k = some hA
    rw [alookup_aset_ne _ _ _ _ (Nat.ne_of_lt hkM)]
    exact hexp
  have h2 : alookup (dupRefreshState st nD D M).hashToName hA = some nA := by
    show alookup (aset st.hashToName D.hash D.name) hA = some nA
    rw [alookup_aset_ne _ _ _ _ hmis]
    exact hh2n
  have h3 : ((dupRefreshState st nD D M).data.any (fun o => o.name == nA)) = true :=
    dataGet_any hgA
  simp only [getter_fn, Option.bind_some, Option.some_bind, h1, h2, h3, if_true,
    Option.getD_some]

/-- C2 witness: `A` (hash 100) holds id 3 in the caches; its duplicate `D`
(hash 200) also carries raw id 3; the counter maximum is 7.  Writing a
reference to "D" stores the fresh id 7, and the old stored id 3 still
resolves to "A". -/
theorem setter_refreshes_duplicate_id_check :
    setter_fn none c2St none "D" = some (some 7, dupRefreshState c2St "D" c2D 7) ∧
    7 ≠ 3 ∧
    dataGet (dupRefreshState c2St "D" c2D 7).data "D" = some { c2D with rawId := 7 } ∧
    dataGet (dupRefreshState c2St "D" c2D 7).data "A" = some c2A ∧
    (getter_fn (dupRefreshState c2St "D" c2D 7) (some 3)).1 = "A" :=
  setter_refreshes_duplicate_id c2St c2D c2A "D" "A" none 3 7 100 (by decide) (by decide)
    (by decide) (by decide) (by decide) (by decide) (by decide) (by decide) (by decide)
    (by decide) (by decide) (by decide) (by decide)

theorem id_getter_pure {scenes : List Nat} {ob : Entity} (h : ob.rawId ≠ 0) :
    id_getter scenes ob = some (ob.rawId + libOffset ob, ob, scenes) := by
  have h' : (ob.rawId == 0) = false := by simpa using h
  simp only [id_getter, h', Bool.false_eq_true, if_false]

theorem id_getter_alloc {scenes : List Nat} {ob : Entity} {M : Nat}
    (h : ob.rawId = 0) (hM : listMax scenes = some M) :
    id_getter scenes ob
      = some (M + libOffset { ob with rawId := M }, { ob with rawId := M },
          (inc_global_id scenes M).2) := by
  simp only [id_getter, h, beq_self_eq_true, if_true, get_global_id, hM]

theorem listMax_inc {scenes : List Nat} {M : Nat} (h : listMax scenes = some M) (m : Nat) :
    listMax (inc_global_id scenes m).2 = some (m + 1) :=
  listMax_replicate scenes (m + 1) (listMax_ne_nil h)

theorem mem_insertByNameDesc {x ob : Entity} {l : List Entity} :
    x ∈ insertByNameDesc ob l ↔ x = ob ∨ x ∈ l := by
  induction l with
  | nil => simp [insertByNameDesc]
  | cons y ys ih =>
    rw [insertByNameDesc]
    by_cases e : y.name < ob.name
    · simp [e]
    · simp only [e, if_false, List.mem_cons, ih]
      tauto

theorem mem_sortByNameDesc {x : Entity} {l : List Entity} :
    x ∈ sortByNameDesc l ↔ x ∈ l := by
  induction l with
  | nil => simp [sortByNameDesc]
  | cons y ys ih =>
    show x ∈ insertByNameDesc y (sortByNameDesc ys) ↔ _
    rw [mem_insertByNameDesc, ih, List.mem_cons]

theorem load_scan_assigns (obs : List Entity) (scenes : List Nat)
    (i2h : List (Nat × Int)) (h2n : List (Int × String)) (M : Nat)
    (hM : listMax scenes = some M) (hpos : 0 < M) :
    ∃ out, load_scan scenes i2h h2n obs = some out ∧
      (∃ M2, listMax out.scenes = some M2 ∧ 0 < M2) ∧
      ∀ ob ∈ out.data, ob.rawId ≠ 0 := by
  induction obs generalizing scenes i2h h2n M with
  | nil => exact ⟨⟨[], scenes, i2h, h2n⟩, rfl, ⟨M, hM, hpos⟩, by simp⟩
  | cons ob rest ih =>
    by_cases hz : ob.rawId = 0
    · have e1 := id_getter_alloc hz hM
      cases hc : (alookup i2h (M + libOffset { ob with rawId := M })).isSome with
      | true =>
        have e2 : id_getter (inc_global_id scenes M).2
            { ({ ob with rawId := M } : Entity) with rawId := 0 }
            = some (M + 1 + libOffset { ob with rawId := M + 1 },
                { ob with rawId := M + 1 }, (inc_global_id (inc_global_id scenes M).2 (M + 1)).2) :=
          id_getter_alloc rfl (listMax_inc hM M)
        obtain ⟨out, hout, hsc, hdata⟩ :=
          ih (inc_global_id (inc_global_id scenes M).2 (M + 1)).2
            (aset i2h (M + 1 + libOffset { ob with rawId := M + 1 })
              ({ ob with rawId := M + 1 } : Entity).hash)
            (aset h2n ({ ob with rawId := M + 1 } : Entity).hash
              ({ ob with rawId := M + 1 } : Entity).name)
            (M + 2) (listMax_inc (listMax_inc hM M) (M + 1)) (by omega)
        refine ⟨{ out with data := { ob with rawId := M + 1 } :: out.data }, ?_, hsc, ?_⟩
        · simp only [load_scan, e1, hc, if_true, e2, hout]
        · intro x hx
          rcases List.mem_cons.mp hx with rfl | hx'
          · simp
          · exact hdata x hx'
      | false =>
        obtain ⟨out, hout, hsc, hdata⟩ :=
          ih (inc_global_id scenes M).2
            (aset i2h (M + libOffset { ob with rawId := M })
              ({ ob with rawId := M } : Entity).hash)
            (aset h2n ({ ob with rawId := M } : Entity).hash
              ({ ob with rawId := M } : Entity).name)
            (M + 1) (listMax_inc hM M) (by omega)
        refine ⟨{ out with data := { ob with rawId := M } :: out.data }, ?_, hsc, ?_⟩
        · simp only [load_scan, e1, hc, Bool.false_eq_true, if_false, hout]
        · intro x hx
          rcases List.mem_cons.mp hx with rfl | hx'
          · simpa using Nat.pos_iff_ne_zero.mp hpos
          · exact hdata x hx'
    · have e1 : id_getter scenes ob = some (ob.rawId + libOffset ob, ob, scenes) :=
        id_getter_pure hz
      cases hc : (alookup i2h (ob.rawId + libOffset ob)).isSome with
      | true =>
        have e2 : id_getter scenes { ob with rawId := 0 }
            = some (M + libOffset { ob with rawId := M },
                { ob with rawId := M }, (inc_global_id scenes M).2) :=
          id_getter_alloc rfl hM
        obtain ⟨out, hout, hsc, hdata⟩ :=
          ih (inc_global_id scenes M).2
            (aset i2h (M + libOffset { ob with rawId := M })
              ({ ob with rawId := M } : Entity).hash)
            (aset h2n ({ ob with rawId := M } : Entity).hash
              ({ ob with rawId := M } : Entity).name)
            (M + 1) (listMax_inc hM M) (by omega)
        refine ⟨{ out with data := { ob with rawId := M } :: out.data }, ?_, hsc, ?_⟩
        · simp only [load_scan, e1, hc, if_true, e2, hout]
        · intro x hx
          rcases List.mem_cons.mp hx with rfl | hx'
          · simpa using Nat.pos_iff_ne_zero.mp hpos
          · exact hdata x hx'
      | false =>
        obtain ⟨out, hout, hsc, hdata⟩ :=
          ih scenes (aset i2h (ob.rawId + libOffset ob) ob.hash)
            (aset h2n ob.hash ob.name) M hM hpos
        refine ⟨{ out with data := ob :: out.data }, ?_, hsc, ?_⟩
        · simp only [load_scan, e1, hc, Bool.false_eq_true, if_false, hout]
        · intro x hx
          rcases List.mem_cons.mp hx with rfl | hx'
          · exact hz
          · exact hdata x hx'

theorem load_scan_unique (obs : List Entity) (scenes : List Nat)
    (i2h : List (Nat × Int)) (h2n : List (Int × String)) (M : Nat)
    (hM : listMax scenes = some M) (hpos : 0 < M)
    (hkeys : ∀ p ∈ i2h, p.1 < M)
    (hraw : ∀ ob ∈ obs, ob.rawId < M)
    (hlib : ∀ ob ∈ obs, ob.library = none) :
    ∃ out, load_scan scenes i2h h2n obs = some out ∧
      (∃ M2, listMax out.scenes = some M2 ∧ M ≤ M2 ∧ ∀ p ∈ out.idToHash, p.1 < M2) ∧
      (∀ x ∈ out.data, alookup i2h x.rawId = none) ∧
      distinctRawIds out.data = true := by
  induction obs generalizing scenes i2h h2n M with
  | nil =>
    exact ⟨⟨[], scenes, i2h, h2n⟩, rfl, ⟨M, hM, Nat.le_refl M, hkeys⟩, by simp, rfl⟩
  | cons ob rest ih =>
    have hlibob : ob.library = none := hlib ob (List.mem_cons_self ob rest)
    have hrawob : ob.rawId < M := hraw ob (List.mem_cons_self ob rest)
    have hoffM : libOffset ({ ob with rawId := M } : Entity) = 0 := by
      simp [libOffset, hlibob]
    have hoff : libOffset ob = 0 := by simp [libOffset, hlibob]
    have hmiss : alookup i2h M = none := alookup_none_of_lt i2h M hkeys
    by_cases hz : ob.rawId = 0
    · have e1 : id_getter scenes ob
          = some (M, { ob with rawId := M }, (inc_global_id scenes M).2) := by
        rw [id_getter_alloc hz hM, hoffM, Nat.add_zero]
      have hc : (alookup i2h M).isSome = false := by rw [hmiss]; rfl
      obtain ⟨out, hout, ⟨M2, hM2, hle2, hkeys2⟩, hnone, hdist⟩ :=
        ih (inc_global_id scenes M).2
          (aset i2h M ({ ob with rawId := M } : Entity).hash)
          (aset h2n ({ ob with rawId := M } : Entity).hash
            ({ ob with rawId := M } : Entity).name)
          (M + 1) (listMax_inc hM M) (by omega)
          (by
            intro p hp
            rcases List.mem_cons.mp hp with rfl | hp2
            · exact Nat.lt_succ_self M
            · exact Nat.lt_trans (hkeys p hp2) (Nat.lt_succ_self M))
          (fun o ho => Nat.lt_trans (hraw o (List.mem_cons_of_mem ob ho)) (Nat.lt_succ_self M))
          (fun o ho => hlib o (List.mem_cons_of_mem ob ho))
      refine ⟨{ out with data := { ob with rawId := M } :: out.data }, ?_,
        ⟨M2, hM2, by omega, hkeys2⟩, ?_, ?_⟩
      · simp only [load_scan, e1, hc, Bool.false_eq_true, if_false, hout]
      · intro x hx
        rcases List.mem_cons.mp hx with rfl | hx2
        · simpa using hmiss
        · exact (alookup_ne_of_aset_none (hnone x hx2)).2
      · simp only [distinctRawIds, Bool.and_eq_true]
        refine ⟨?_, hdist⟩
        rw [List.all_eq_true]
        intro x hx
        simpa using (alookup_ne_of_aset_none (hnone x hx)).1
    · have e1 : id_getter scenes ob = some (ob.rawId, ob, scenes) := by
        rw [id_getter_pure hz, hoff, Nat.add_zero]
      cases hc2 : alookup i2h ob.rawId with
      | none =>
        have hc : (alookup i2h ob.rawId).isSome = false := by rw [hc2]; rfl
        obtain ⟨out, hout, ⟨M2, hM2, hle2, hkeys2⟩, hnone, hdist⟩ :=
          ih scenes (aset i2h ob.rawId ob.hash) (aset h2n ob.hash ob.name) M hM hpos
            (by
              intro p hp
              rcases List.mem_cons.mp hp with rfl | hp2
              · exact hrawob
              · exact hkeys p hp2)
            (fun o ho => hraw o (List.mem_cons_of_mem ob ho))
            (fun o ho => hlib o (List.mem_cons_of_mem ob ho))
        refine ⟨{ out with data := ob :: out.data }, ?_, ⟨M2, hM2, hle2, hkeys2⟩, ?_, ?_⟩
        · simp only [load_scan, e1, hc, Bool.false_eq_true, if_false, hout]
        · intro x hx
          rcases List.mem_cons.mp hx with rfl | hx2
          · exact hc2
          · exact (alookup_ne_of_aset_none (hnone x hx2)).2
        · simp only [distinctRawIds, Bool.and_eq_true]
          refine ⟨?_, hdist⟩
          rw [List.all_eq_true]
          intro x hx
          simpa using (alookup_ne_of_aset_none (hnone x hx)).1
      | some hv =>
        have hc : (alookup i2h ob.rawId).isSome = true := by rw [hc2]; rfl
        have e2 : id_getter scenes ({ ob with rawId := 0 } : Entity)
            = some (M, { ob with rawId := M }, (inc_global_id scenes M).2) := by
          rw [id_getter_alloc rfl hM]
          simp [libOffset, hlibob]
        obtain ⟨out, hout, ⟨M2, hM2, hle2, hkeys2⟩, hnone, hdist⟩ :=
          ih (inc_global_id scenes M).2
            (aset i2h M ({ ob with rawId := M } : Entity).hash)
            (aset h2n ({ ob with rawId := M } : Entity).hash
              ({ ob with rawId := M } : Entity).name)
            (M + 1) (listMax_inc hM M) (by omega)
            (by
              intro p hp
              rcases List.mem_cons.mp hp with rfl | hp2
              · exact Nat.lt_succ_self M
              · exact Nat.lt_trans (hkeys p hp2) (Nat.lt_succ_self M))
            (fun o ho => Nat.lt_trans (hraw o (List.mem_cons_of_mem ob ho)) (Nat.lt_succ_self M))
            (fun o ho => hlib o (List.mem_cons_of_mem ob ho))
        refine ⟨{ out with data := { ob with rawId := M } :: out.data }, ?_,
          ⟨M2, hM2, by omega, hkeys2⟩, ?_, ?_⟩
        · simp only [load_scan, e1, hc, if_true, e2, hout]
        · intro x hx
          rcases List.mem_cons.mp hx with rfl | hx2
          · simpa using hmiss
          · exact (alookup_ne_of_aset_none (hnone x hx2)).2
        · simp only [distinctRawIds, Bool.and_eq_true]
          refine ⟨?_, hdist⟩
          rw [List.all_eq_true]
          intro x hx
          simpa using (alookup_ne_of_aset_none (hnone x hx)).1

/-- C4 counterexample: with the counter drifted down to 1 (while two members
already share raw id 1), `load_file` detects the collision, resets the
loser "a", and reallocates — but the allocator hands back the counter
maximum 1, which is exactly the id the winner "b" kept.  Immediately after
the load, the two distinct live members "b" and "a" both hold raw id 1, so
raw ids are not pairwise distinct. -/
theorem load_file_duplicate_raw_ids_cex :
    (load_file c4St).map (fun s => s.data.map (fun o => (o.name, o.rawId)))
      = some [("b", 1), ("a", 1)] ∧
    (load_file c4St).map (fun s => distinctRawIds s.data) = some false := by
  have hba : ¬ ("b" : String) < "a" := by
    rw [String.lt_iff_toList_lt]
    decide
  have hsort : sortByNameDesc c4St.data
      = [⟨"b", 10, 1, none⟩, ⟨"a", 20, 1, none⟩] := by
    show insertByNameDesc ⟨"a", 20, 1, none⟩ [⟨"b", 10, 1, none⟩] = _
    rw [insertByNameDesc, if_neg]
    · rfl
    · exact hba
  have hload : load_file c4St
      = load_scan [1] [] [] [⟨"b", 10, 1, none⟩, ⟨"a", 20, 1, none⟩] := by
    rw [load_file, hsort]
    rfl
  refine ⟨?_, ?_⟩ <;> rw [hload] <;> decide

/-- C4 amended: post-load raw-id uniqueness holds provided the counter
maximum exceeds every live member's raw id (the invariant the allocator
maintains) and no member is linked from a library (linked members are
deduplicated on their offset effective ids, not their raw ids).  The
rebuild scans members by name descending; a member whose id is already
claimed earlier in the scan has its raw id reset to the unset sentinel and
is immediately re-identified within the same scan. -/
theorem load_file_unique_raw_ids (st : BState) (M : Nat)
    (hM : get_global_id st.scenes = some M) (hpos : 0 < M)
    (hraw : ∀ ob ∈ st.data, ob.rawId < M)
    (hlib : ∀ ob ∈ st.data, ob.library = none) :
    (load_file st).map (fun s => distinctRawIds s.data) = some true := by
  obtain ⟨out, hout, _, _, hdist⟩ :=
    load_scan_unique (sortByNameDesc st.data) st.scenes [] [] M hM hpos
      (by simp)
      (fun ob hob => hraw ob (mem_sortByNameDesc.mp hob))
      (fun ob hob => hlib ob (mem_sortByNameDesc.mp hob))
  rw [load_file, hout]
  simpa using hdist

/-- C4 amended-claim witness: members with raw ids 1, 1, 2 and counter 3. -/
theorem load_file_unique_raw_ids_check :
    (load_file c4StW).map (fun s => distinctRawIds s.data) = some true :=
  load_file_unique_raw_ids c4StW 3 (by decide) (by decide) (by decide) (by decide)

/-- C10: the `load_file` rebuild reads the `id` attribute of every live
member (lines 326 and 329 of the source), so the lazy allocator runs for
every member during the scan itself: immediately after the load every live
member holds an assigned, nonzero raw id — a collision loser reset during
the scan is re-identified by the very next cache-store line, within the
same scan, not lazily on a later access.  Hypotheses: at least one scene
and a positive counter maximum (the counter's default floor is 1). -/
theorem load_file_assigns_all_ids (st : BState) (M : Nat)
    (hM : get_global_id st.scenes = some M) (hpos : 0 < M) :
    (load_file st).map (fun s => allIdsAssigned s.data) = some true := by
  obtain ⟨out, hout, _, hdata⟩ :=
    load_scan_assigns (sortByNameDesc st.data) st.scenes [] [] M hM hpos
  rw [load_file, hout]
  show some (allIdsAssigned out.data) = some true
  rw [allIdsAssigned]
  have : out.data.all (fun o => o.rawId != 0) = true := by
    rw [List.all_eq_true]
    intro x hx
    simpa using hdata x hx
  rw [this]

/-- C10 witness: one member still unset, two colliding, counter 2 — after
the load every member holds a nonzero raw id. -/
theorem load_file_assigns_all_ids_check :
    (load_file c10St).map (fun s => allIdsAssigned s.data) = some true :=
  load_file_assigns_all_ids c10St 2 (by decide) (by decide)
